import Mathlib

/-!
Verification of the rasa-saleor conversational middleware core.

This file embeds, at source level, the parts of the repository that the
frozen claims are about:

* `src/actions/saleor_graphql_action.py`: the query sanitizer
  `_sanitize_query`, the two-transport GraphQL executor `_invoke_graphql`,
  and the agent tool-call loop `_tool_loop`;
* `src/saleor_api/new_salor_graph.py`: the history filter
  `_sanitize_for_llm` and the structured-input renderer
  `_render_structured_input`;
* `src/saleor_api/new_salor_api_server.py`: the `chat_bot` request handler
  and its in-memory session store.

Python strings are modelled as `String` manipulated through `List Char`
(Python slicing and the regexes involved are per-character and effectively
ASCII here).  The regular expressions of `_sanitize_query` are embedded as
deterministic character scanners: each regex used by the source is simple
enough that the greedy semantics of Python `re.sub` (left-to-right scan,
non-overlapping matches, resume after the replaced span, advance one
character after a failed match attempt) is reproduced exactly, including
the one backtracking case of `products\s*\(\s*([^)]+)\)` on an argument
list made only of whitespace.  External effectful collaborators (the LLM
capability, the two GraphQL transports, the compiled langgraph) are
modelled as function parameters returning `Except String _`, with a raised
Python exception represented by `Except.error` carrying the exception
text; `repr` of an exception is modelled by that text itself.
-/

deriving instance DecidableEq for Except

/-- Python whitespace class `\s` (ASCII part, which is all that occurs here). -/
def isWsChar (c : Char) : Bool :=
  c = ' ' || c = '\t' || c = '\n' || c = '\r' || c = '\x0b' || c = '\x0c'

/-- Python word-character class `\w` (ASCII part), used for `\b` boundaries. -/
def isWordChar (c : Char) : Bool :=
  c.isAlphanum || c = '_'

/-- Consume the literal `pat` from the front of `l`; `some` of the remainder
on success, `none` on the first mismatch. -/
def dropLit : List Char → List Char → Option (List Char)
  | [], l => some l
  | _ :: _, [] => none
  | p :: ps, c :: cs => if c = p then dropLit ps cs else none

/-- Match `channelListings\s*\([^)]*\)` at the head of `l`
(regex 1 of `_sanitize_query`); returns the remainder after `)`. -/
def matchChan (l : List Char) : Option (List Char) :=
  match dropLit "channelListings".data l with
  | none => none
  | some r1 =>
    match r1.dropWhile isWsChar with
    | c :: r3 =>
      if c = '(' then
        match r3.dropWhile (fun d => d ≠ ')') with
        | d :: r5 => if d = ')' then some r5 else none
        | [] => none
      else none
    | [] => none

/-- Scanner for `re.sub(r'(channelListings)\s*\([^)]*\)', r'\1', _)`:
the replacement is the captured field name itself.  Fuel-indexed (one unit
per scan position); fuel equal to the input length always suffices because
every step consumes at least one input character. -/
def stripChanAux : Nat → List Char → List Char
  | _, [] => []
  | 0, c :: cs => c :: cs
  | fuel + 1, c :: cs =>
    match matchChan (c :: cs) with
    | some rest => "channelListings".data ++ stripChanAux fuel rest
    | none => c :: stripChanAux fuel cs

/-- Pass 1 of `_sanitize_query`: strip argument lists from `channelListings`. -/
def stripChan (l : List Char) : List Char := stripChanAux l.length l

/-- Match `end\s*\x7b` at the head of `l` (the `\b` is handled by the
caller); returns the remainder after the opening brace. -/
def matchEnd (l : List Char) : Option (List Char) :=
  match dropLit "end".data l with
  | none => none
  | some r1 =>
    match r1.dropWhile isWsChar with
    | c :: r2 => if c = '\x7b' then some r2 else none
    | [] => none

/-- Scanner for `re.sub(r'\bend\s*\x7b', 'stop \x7b', _)` (regex 2 of
`_sanitize_query`).  `prevWord` records whether the previous character was
a word character, so that the `\b` before `end` can be decided ( `e` is a
word character, hence the boundary holds iff the previous character is
not).  After a replacement the last consumed character is the brace, which
is not a word character. -/
def renameEndAux : Nat → Bool → List Char → List Char
  | _, _, [] => []
  | 0, _, c :: cs => c :: cs
  | fuel + 1, prevWord, c :: cs =>
    if prevWord then c :: renameEndAux fuel (isWordChar c) cs
    else
      match matchEnd (c :: cs) with
      | some rest => "stop ".data ++ '\x7b' :: renameEndAux fuel false rest
      | none => c :: renameEndAux fuel (isWordChar c) cs

/-- Pass 2 of `_sanitize_query`: rename the range terminator field. -/
def renameEnd (l : List Char) : List Char := renameEndAux l.length false l

/-- Does `(first|last)\s*:` match here (after the alternation, optional
whitespace then a colon)? -/
def matchFLColon (l : List Char) : Bool :=
  match l.dropWhile isWsChar with
  | c :: _ => c = ':'
  | [] => false

/-- Does `(first|last)\s*:` match at the head of `l`? -/
def matchFL (l : List Char) : Bool :=
  match dropLit "first".data l with
  | some r => matchFLColon r
  | none =>
    match dropLit "last".data l with
    | some r => matchFLColon r
    | none => false

/-- `re.search(r'\b(first|last)\s*:', _)` as used by `add_first`:
scan every position, tracking the word-boundary context. -/
def searchFLAux : Bool → List Char → Bool
  | _, [] => false
  | prevWord, c :: cs =>
    if !prevWord && matchFL (c :: cs) then true
    else searchFLAux (isWordChar c) cs

/-- Python `str.strip()` on a character list. -/
def pyStripChars (l : List Char) : List Char :=
  ((l.dropWhile isWsChar).reverse.dropWhile isWsChar).reverse

/-- The `add_first` replacement function of `_sanitize_query` (lines
107-112 of `saleor_graphql_action.py`), applied to the captured group. -/
def add_first (inner : List Char) : List Char :=
  if searchFLAux false inner then "products(".data ++ inner ++ [')']
  else
    let i := pyStripChars inner
    "products(first: 10".data ++ (if i = [] then [] else ", ".data ++ i) ++ [')']

/-- Match `products\s*\(\s*([^)]+)\)` at the head of `l` (regex 3 of
`_sanitize_query`); returns the captured group and the remainder.
The greedy `\s*` after `(` normally absorbs all leading whitespace of the
non-`)` run; when that run is whitespace only, the regex engine backtracks
so that `[^)]+` keeps exactly the last whitespace character. -/
def matchProd (l : List Char) : Option (List Char × List Char) :=
  match dropLit "products".data l with
  | none => none
  | some r1 =>
    match r1.dropWhile isWsChar with
    | c :: r3 =>
      if c = '(' then
        let run := r3.takeWhile (fun d => d ≠ ')')
        match r3.dropWhile (fun d => d ≠ ')') with
        | d :: r5 =>
          if d = ')' then
            if run = [] then none
            else
              let grp := if run.all isWsChar then run.drop (run.length - 1)
                         else run.dropWhile isWsChar
              some (grp, r5)
          else none
        | [] => none
      else none
    | [] => none

/-- Scanner for `re.sub(r'products\s*\(\s*([^)]+)\)', add_first, _)`. -/
def injectFirstAux : Nat → List Char → List Char
  | _, [] => []
  | 0, c :: cs => c :: cs
  | fuel + 1, c :: cs =>
    match matchProd (c :: cs) with
    | some (grp, rest) => add_first grp ++ injectFirstAux fuel rest
    | none => c :: injectFirstAux fuel cs

/-- Pass 3 of `_sanitize_query`: ensure `products(...)` carries pagination. -/
def injectFirst (l : List Char) : List Char := injectFirstAux l.length l

/-- Scanner for `re.sub(r',\s*\)', ')', _)` (the final tidy pass). -/
def tidyCommaAux : Nat → List Char → List Char
  | _, [] => []
  | 0, c :: cs => c :: cs
  | fuel + 1, c :: cs =>
    if c = ',' then
      match cs.dropWhile isWsChar with
      | d :: r =>
        if d = ')' then ')' :: tidyCommaAux fuel r
        else ',' :: tidyCommaAux fuel cs
      | [] => ',' :: tidyCommaAux fuel cs
    else c :: tidyCommaAux fuel cs

/-- Pass 4 of `_sanitize_query`: collapse a dangling `,\s*)` into `)`. -/
def tidyComma (l : List Char) : List Char := tidyCommaAux l.length l

/-- `_sanitize_query` of `saleor_graphql_action.py` (lines 93-117), on
string input (the Python function returns non-string input unchanged;
only the string case is modelled).  The four repairs are applied in the
source order. -/
def _sanitize_query (q : String) : String :=
  String.mk (tidyComma (injectFirst (renameEnd (stripChan q.data))))

/-- A Python value as it occurs in a tool-call `args` dict: `None`, a
string, a number (modelled by `Int`; the `int`/`float` distinction is not
needed by any claim), a bool, or a non-primitive object abstracted by its
`str()` text.  Containers and other objects are `vOther`; the code only
ever coerces them with `str`. -/
inductive PyVal
  | vNone
  | vStr (s : String)
  | vInt (n : Int)
  | vBool (b : Bool)
  | vOther (strRepr : String)
deriving DecidableEq, Repr

/-- Python truthiness for the values above.  Non-primitive objects are
taken as truthy (the tool-call payloads the code inspects are nonempty
containers or objects). -/
def pyTruthy : PyVal → Bool
  | PyVal.vNone => false
  | PyVal.vStr s => if s = "" then false else true
  | PyVal.vInt n => if n = 0 then false else true
  | PyVal.vBool b => b
  | PyVal.vOther _ => true

/-- Python `x or y` on values (returns `y` when `x` is falsy). -/
def pyOrVal (a b : PyVal) : PyVal := if pyTruthy a then a else b

/-- Python `str()` coercion of a value. -/
def pyStr : PyVal → String
  | PyVal.vNone => "None"
  | PyVal.vStr s => s
  | PyVal.vInt n => toString n
  | PyVal.vBool true => "True"
  | PyVal.vBool false => "False"
  | PyVal.vOther r => r

/-- A Python dict of tool-call arguments, modelled as an insertion-ordered
association list (Python dicts preserve insertion order). -/
abbrev PyDict : Type := List (String × PyVal)

/-- `d.get(k)`: Python returns `None` both for a missing key and for a
stored `None`, which is exactly how the source uses it. -/
def dictGet (d : PyDict) (k : String) : PyVal :=
  match d.find? (fun kv => kv.1 = k) with
  | some kv => kv.2
  | none => PyVal.vNone

/-- `k in d` for a Python dict. -/
def dictHas (d : PyDict) (k : String) : Bool :=
  d.any (fun kv => kv.1 = k)

/-- Python `repr` of a value (used only inside the `str()` text of a dict). -/
def pyReprVal : PyVal → String
  | PyVal.vNone => "None"
  | PyVal.vStr s => "\x27" ++ s ++ "\x27"
  | PyVal.vInt n => toString n
  | PyVal.vBool true => "True"
  | PyVal.vBool false => "False"
  | PyVal.vOther r => r

/-- Python `str()` of an args dict, as produced by `str(args)`. -/
def pyStrDict (d : PyDict) : String :=
  "\x7b" ++ String.intercalate ", "
      (d.map (fun kv => "\x27" ++ kv.1 ++ "\x27: " ++ pyReprVal kv.2)) ++ "\x7d"

/-- A tool call as emitted by the LLM capability: `name`, `id` and `args`
are read with `getattr(_, _, None)`, hence the `Option`s.  The `args`
payload is a dict (the shape the OpenAI tool-call API produces; the dead
non-dict fallback branch of the source is not modelled). -/
structure RawToolCall where
  name : Option String
  id : Option String
  args : PyDict
deriving DecidableEq, Repr

/-- A langchain message, shared by both agent implementations:
`SystemMessage`, `HumanMessage`, `AIMessage` (with its `tool_calls`) and
`ToolMessage` (with its `tool_call_id`). -/
inductive Msg
  | system (content : String)
  | human (content : String)
  | ai (content : String) (tool_calls : List RawToolCall)
  | tool (content : String) (tool_call_id : Option String)
deriving DecidableEq, Repr

/-- One response of the LLM capability: assistant text plus declared tool
calls (`[]` models a falsy/absent `tool_calls` attribute). -/
structure LLMResp where
  content : String
  tool_calls : List RawToolCall
deriving DecidableEq, Repr

/-- The input handed to a GraphQL transport: either the operation string,
or the raw args dict when no string-valued `query`/`input` argument was
found. -/
inductive ToolInput
  | tstr (s : String)
  | targs (args : PyDict)
deriving DecidableEq, Repr

/-- `_invoke_graphql` of `saleor_graphql_action.py` (lines 119-132).  The
two transports (`e1` without schema fetching, `e2` with) are parameters;
a raised exception is `Except.error` carrying its text, and `repr` of an
exception is modelled by that text.  String input is sanitized first;
non-string input is passed through unchanged. -/
def _invoke_graphql (e1 e2 : ToolInput → Except String String)
    (tool_input : ToolInput) : Except String String :=
  let query : ToolInput :=
    match tool_input with
    | ToolInput.tstr s => ToolInput.tstr (_sanitize_query s)
    | other => other
  match e1 query with
  | Except.ok r => Except.ok r
  | Except.error a =>
    match e2 query with
    | Except.ok r => Except.ok r
    | Except.error b =>
      Except.error ("GraphQL failed. No-schema error: " ++ a
        ++ " | With-schema error: " ++ b)

/-- The per-call normalization of `_tool_loop` (lines 146-162): extract a
string `query` (falling back to `input`), sanitize it; otherwise keep only
primitive-valued arguments and make sure a `query` key exists, coercing
the raw argument value (or the whole dict) to a string. -/
def sanitizeToolCall (tc : RawToolCall) : RawToolCall :=
  let args := tc.args
  let qa0 := dictGet args "query"
  let queryArg := if pyTruthy qa0 then qa0 else dictGet args "input"
  match queryArg with
  | PyVal.vStr s => RawToolCall.mk tc.name tc.id [("query", PyVal.vStr (_sanitize_query s))]
  | _ =>
    let safe := args.filter (fun kv =>
      match kv.2 with
      | PyVal.vOther _ => false
      | _ => true)
    let safe2 :=
      if dictHas safe "query" then safe
      else safe ++ [("query", PyVal.vStr
        (match queryArg with
         | PyVal.vNone => pyStrDict args
         | v => pyStr v))]
    RawToolCall.mk tc.name tc.id safe2

/-- The execution phase of one `_tool_loop` iteration (lines 168-182):
run every declared tool call through `_invoke_graphql`, appending each
result as a `ToolMessage` and recording the sanitized query string.  An
executor failure propagates (there is no `try` around the call). -/
def execToolCalls (e1 e2 : ToolInput → Except String String) :
    List RawToolCall → List Msg → List String →
    Except String (List Msg × List String)
  | [], msgs, qs => Except.ok (msgs, qs)
  | tc :: rest, msgs, qs =>
    let args := tc.args
    let queryArg := pyOrVal (dictGet args "query") (dictGet args "input")
    let toolInput : ToolInput :=
      match queryArg with
      | PyVal.vStr s => ToolInput.tstr s
      | _ => ToolInput.targs args
    match _invoke_graphql e1 e2 toolInput with
    | Except.error e => Except.error e
    | Except.ok res =>
      let recorded : String :=
        match queryArg with
        | PyVal.vStr s => _sanitize_query s
        | _ => pyStrDict args
      execToolCalls e1 e2 rest (msgs ++ [Msg.tool res tc.id]) (qs ++ [recorded])

/-- The fixed fallback answer of `_tool_loop` (line 184). -/
def fallbackAnswer : String := "Sorry, I couldn\x27t generate an answer."

/-- `answer_text = last_ai.content if last_ai else <fallback>`. -/
def answerOf : Option LLMResp → String
  | some r => r.content
  | none => fallbackAnswer

/-- Result of one `_tool_loop` run: the final answer text and the ordered
list of recorded (sanitized) query strings. -/
structure LoopResult where
  answer : String
  queries : List String
deriving DecidableEq, Repr

/-- The abbreviated system instruction seeded into the loop.  Its literal
text never influences the control flow or any claim, so the full prompt
string of the source is not reproduced. -/
def SYSTEM_PROMPT : String := "You are a Saleor shopping copilot."

/-- The iteration body of `_tool_loop` (lines 138-182), with the LLM
capability `llm` and both transports as parameters.  The `Nat` component
counts how many times the LLM decision step was invoked.  A failure of the
decision step, or of a tool execution, is returned as `Except.error` (in
the source the exception propagates out of `_tool_loop`). -/
def _tool_loop_aux (llm : List Msg → Except String LLMResp)
    (e1 e2 : ToolInput → Except String String) :
    Nat → List Msg → List String → Option LLMResp → Nat →
    Except String LoopResult × Nat
  | 0, _, qs, lastAi, calls => (Except.ok (LoopResult.mk (answerOf lastAi) qs), calls)
  | fuel + 1, msgs, qs, _, calls =>
    match llm msgs with
    | Except.error e => (Except.error e, calls + 1)
    | Except.ok resp =>
      if resp.tool_calls.isEmpty then
        (Except.ok (LoopResult.mk resp.content qs), calls + 1)
      else
        let msgs1 := msgs ++ [Msg.ai resp.content (resp.tool_calls.map sanitizeToolCall)]
        match execToolCalls e1 e2 resp.tool_calls msgs1 qs with
        | Except.error e => (Except.error e, calls + 1)
        | Except.ok (msgs2, qs2) =>
          _tool_loop_aux llm e1 e2 fuel msgs2 qs2 (some resp) (calls + 1)

/-- `_tool_loop` of `saleor_graphql_action.py` (lines 134-185). -/
def _tool_loop (llm : List Msg → Except String LLMResp)
    (e1 e2 : ToolInput → Except String String)
    (user_task : String) (max_iters : Nat := 4) : Except String LoopResult :=
  (_tool_loop_aux llm e1 e2 max_iters
    [Msg.system SYSTEM_PROMPT, Msg.human user_task] [] none 0).1

/-- `_sanitize_for_llm` of `new_salor_graph.py` (lines 185-198).  The flag
`pending_tools_allowed` is set by every `AIMessage` to "its `tool_calls`
list is nonempty", left untouched by `ToolMessage`s (which are kept only
while the flag holds), and cleared by every other message. -/
def sanitizeForLLMAux : List Msg → Bool → List Msg
  | [], _ => []
  | m :: rest, pending =>
    match m with
    | Msg.ai c tcs => Msg.ai c tcs :: sanitizeForLLMAux rest (!tcs.isEmpty)
    | Msg.tool c id =>
      if pending then Msg.tool c id :: sanitizeForLLMAux rest pending
      else sanitizeForLLMAux rest pending
    | other => other :: sanitizeForLLMAux rest false

/-- `_sanitize_for_llm(messages)`: the filter applied to the history on
every transition into the decision step. -/
def _sanitize_for_llm (messages : List Msg) : List Msg :=
  sanitizeForLLMAux messages false

/-- Is this a `ToolMessage`? -/
def isToolMsg : Msg → Bool
  | Msg.tool _ _ => true
  | _ => false

/-- Modelled from the spec sentence as amended for claim C4: a tool result
is kept iff, walking backwards over the messages before it and skipping
tool results, the first message found is an assistant message with a
nonempty tool-call list; the tool-call identifier itself is never
compared. -/
def keepToolHere (before : List Msg) : Bool :=
  match before.reverse.dropWhile isToolMsg with
  | Msg.ai _ tcs :: _ => !tcs.isEmpty
  | _ => false

/-- The filter described by the amended claim C4, written independently of
the source: every non-tool message is kept; a tool message is kept iff
`keepToolHere` holds of the messages before it. -/
def specToolFilterAux : List Msg → List Msg → List Msg
  | _, [] => []
  | before, m :: rest =>
    match m with
    | Msg.tool c id =>
      (if keepToolHere before then [Msg.tool c id] else [])
        ++ specToolFilterAux (before ++ [m]) rest
    | other => other :: specToolFilterAux (before ++ [other]) rest

/-- Entry point of the spec-side filter for claim C4. -/
def specToolFilter (messages : List Msg) : List Msg :=
  specToolFilterAux [] messages

/-- Rewrite every tool-call identifier (on `ToolMessage`s and on the tool
calls declared by `AIMessage`s) through `f`; used to express that the
history filter never inspects identifiers. -/
def mapToolIds (f : Option String → Option String) : Msg → Msg
  | Msg.tool c id => Msg.tool c (f id)
  | Msg.ai c tcs => Msg.ai c (tcs.map (fun tc => RawToolCall.mk tc.name (f tc.id) tc.args))
  | m => m

/-- A Python value as seen by `_render_structured_input` of
`new_salor_graph.py`: `None`, a string, or a non-string object
abstracted by its `json.dumps` text (`none` when serialization raises)
together with its `str()` coercion. -/
inductive PyObj
  | pyNone
  | pyStr (s : String)
  | pyOther (dumps : Option String) (strRepr : String)
deriving DecidableEq, Repr

/-- Python slicing `s[:n]` (by characters). -/
def pyTake (s : String) (n : Nat) : String := String.mk (s.data.take n)

/-- The inner `_fmt` of `_render_structured_input` (lines 127-135):
`None` renders as `"N/A"`, a string is returned unchanged, any other
object is serialized and truncated to 4000 characters, falling back to a
truncated `str()` coercion when serialization raises. -/
def _fmt : PyObj → String
  | PyObj.pyNone => "N/A"
  | PyObj.pyStr s => s
  | PyObj.pyOther (some j) _ => pyTake j 4000
  | PyObj.pyOther none r => pyTake r 4000

/-- `_render_structured_input` of `new_salor_graph.py` (lines 126-143).
The `users_query` field is typed `str` and interpolated directly, without
passing through `_fmt`. -/
def _render_structured_input (users_query : String)
    (additional_details kg_products kg_response : PyObj) : String :=
  "# INPUTS\n"
    ++ "Users query: " ++ users_query ++ "\n"
    ++ "Additional details: " ++ _fmt additional_details ++ "\n"
    ++ "KG products: " ++ _fmt kg_products ++ "\n"
    ++ "KG response: " ++ _fmt kg_response ++ "\n"

/-- The in-memory `SESSIONS` store of `new_salor_api_server.py`, mapping a
session id to its stored `MessagesState` (just the message list). -/
abbrev SessionStore : Type := String → Option (List Msg)

/-- `chat_bot` of `new_salor_api_server.py` (lines 115-219), restricted to
what the claims observe: the session store before/after and the outcome.
`graphRun` abstracts `app.invoke` on the compiled langgraph (the whole
decide/execute cycle), returning the new message list or the text of a
raised exception.  Crucially, `run_structured` appends the rendered
`HumanMessage` to `state["messages"]` *in place*; since
`SESSIONS.get(sid)` aliases the stored dict, that append is visible in the
store even when `graphRun` subsequently fails — which the returned store
reflects.  The missing-question guard raises before anything is mutated.
A missing or empty `session_id` falls back to `"default"`. -/
def chat_bot (graphRun : List Msg → Except String (List Msg))
    (sessions : SessionStore) (session_id : Option String)
    (question : String)
    (additional_details kg_products kg_response : PyObj) :
    SessionStore × Except String (List Msg) :=
  if question = "" then (sessions, Except.error "Question is required")
  else
    let sid := match session_id with
      | some s => if s = "" then "default" else s
      | none => "default"
    let stored := sessions sid
    let msgs0 := match stored with
      | some m => m
      | none => []
    let msgs1 := msgs0 ++ [Msg.human (_render_structured_input question
      additional_details kg_products kg_response)]
    let sessionsMut : SessionStore := fun k =>
      if k = sid then
        (match stored with
         | some _ => some msgs1
         | none => none)
      else sessions k
    match graphRun msgs1 with
    | Except.error e => (sessionsMut, Except.error e)
    | Except.ok newState =>
      (fun k => if k = sid then some newState else sessionsMut k, Except.ok newState)

theorem dropLit_self_append (p : List Char) : ∀ l : List Char, dropLit p (p ++ l) = some l := by
  induction p with
  | nil => intro l; rfl
  | cons x xs ih => intro l; simp [dropLit, ih]

theorem takeWhile_append_all {α : Type} (p : α → Bool) :
    ∀ (xs : List α) (y : α) (ys : List α), (∀ x ∈ xs, p x = true) → p y = false →
      (xs ++ y :: ys).takeWhile p = xs := by
  intro xs
  induction xs with
  | nil => intro y ys _ hy; simp [List.takeWhile_cons, hy]
  | cons a as ih =>
    intro y ys hall hy
    have ha : p a = true := hall a (by simp)
    simp [List.takeWhile_cons, ha, ih y ys (fun x hx => hall x (by simp [hx])) hy]

theorem dropWhile_append_all {α : Type} (p : α → Bool) :
    ∀ (xs : List α) (y : α) (ys : List α), (∀ x ∈ xs, p x = true) → p y = false →
      (xs ++ y :: ys).dropWhile p = y :: ys := by
  intro xs
  induction xs with
  | nil => intro y ys _ hy; simp [List.dropWhile_cons, hy]
  | cons a as ih =>
    intro y ys hall hy
    have ha : p a = true := hall a (by simp)
    simp [List.dropWhile_cons, ha, ih y ys (fun x hx => hall x (by simp [hx])) hy]

theorem stripChanAux_nil (f : Nat) : stripChanAux f [] = [] := by cases f <;> rfl

theorem renameEndAux_nil (f : Nat) (b : Bool) : renameEndAux f b [] = [] := by cases f <;> rfl

theorem injectFirstAux_nil (f : Nat) : injectFirstAux f [] = [] := by cases f <;> rfl

theorem dictGet_cons_self (k : String) (v : PyVal) (d : PyDict) :
    dictGet ((k, v) :: d) k = v := by
  simp [dictGet, List.find?]

theorem sanity_pagination_example :
    _sanitize_query "products(filter: \x7bsearch: \"x\"\x7d)"
      = "products(first: 10, filter: \x7bsearch: \"x\"\x7d)" := by decide

theorem sanity_chan_example :
    _sanitize_query "channelListings(channel: \"x\") \x7b isPublished \x7d"
      = "channelListings \x7b isPublished \x7d" := by decide

theorem sanity_end_example :
    _sanitize_query "end \x7b" = "stop \x7b" := by decide

theorem sanity_comma_example :
    _sanitize_query ",,)" = ",)" := by decide

theorem keepToolHere_append_ai (before : List Msg) (c : String) (tcs : List RawToolCall) :
    keepToolHere (before ++ [Msg.ai c tcs]) = !tcs.isEmpty := by
  simp [keepToolHere, List.dropWhile_cons, isToolMsg]

theorem keepToolHere_append_tool (before : List Msg) (c : String) (id : Option String) :
    keepToolHere (before ++ [Msg.tool c id]) = keepToolHere before := by
  simp [keepToolHere, List.dropWhile_cons, isToolMsg]

theorem keepToolHere_append_human (before : List Msg) (c : String) :
    keepToolHere (before ++ [Msg.human c]) = false := by
  simp [keepToolHere, List.dropWhile_cons, isToolMsg]

theorem keepToolHere_append_system (before : List Msg) (c : String) :
    keepToolHere (before ++ [Msg.system c]) = false := by
  simp [keepToolHere, List.dropWhile_cons, isToolMsg]

theorem sanitizeForLLMAux_eq_spec :
    ∀ (rest before : List Msg) (pending : Bool), pending = keepToolHere before →
      sanitizeForLLMAux rest pending = specToolFilterAux before rest := by
  intro rest
  induction rest with
  | nil => intro before pending _; rfl
  | cons m r ih =>
    intro before pending hp
    cases m with
    | ai c tcs =>
      simp only [sanitizeForLLMAux, specToolFilterAux]
      rw [ih (before ++ [Msg.ai c tcs]) (!tcs.isEmpty) (by rw [keepToolHere_append_ai])]
    | tool c id =>
      simp only [sanitizeForLLMAux, specToolFilterAux]
      rw [hp]
      rw [ih (before ++ [Msg.tool c id]) (keepToolHere before)
            (by rw [keepToolHere_append_tool])]
      by_cases h : keepToolHere before = true
      · simp [h]
      · simp at h; simp [h]
    | human c =>
      simp only [sanitizeForLLMAux, specToolFilterAux]
      rw [ih (before ++ [Msg.human c]) false (by rw [keepToolHere_append_human])]
    | system c =>
      simp only [sanitizeForLLMAux, specToolFilterAux]
      rw [ih (before ++ [Msg.system c]) false (by rw [keepToolHere_append_system])]

theorem sanitizeForLLMAux_map_ids (f : Option String → Option String) :
    ∀ (rest : List Msg) (pending : Bool),
      sanitizeForLLMAux (rest.map (mapToolIds f)) pending
        = (sanitizeForLLMAux rest pending).map (mapToolIds f) := by
  intro rest
  induction rest with
  | nil => intro pending; rfl
  | cons m r ih =>
    intro pending
    cases m with
    | ai c tcs =>
      have hemp : ((tcs.map (fun tc => RawToolCall.mk tc.name (f tc.id) tc.args)).isEmpty)
          = tcs.isEmpty := by cases tcs <;> rfl
      simp only [List.map_cons, mapToolIds, sanitizeForLLMAux, hemp, ih]
    | tool c id =>
      simp only [List.map_cons, mapToolIds, sanitizeForLLMAux]
      by_cases h : pending
      · simp [h, ih, mapToolIds]
      · simp [h, ih, mapToolIds]
    | human c =>
      simp only [List.map_cons, mapToolIds, sanitizeForLLMAux, ih]
    | system c =>
      simp only [List.map_cons, mapToolIds, sanitizeForLLMAux, ih]

/-- Claim C4, counterexample: the claim states that a `ToolResultMessage`
is kept only when the preceding assistant message declared the *matching*
tool-call identifier.  In the code, a tool result whose `tool_call_id`
(`"idB"`) matches no declared tool-call id (`"idA"`) is nevertheless kept:
`_sanitize_for_llm` returns the history unchanged instead of omitting it. -/
theorem C4_counterexample :
    _sanitize_for_llm
        [Msg.ai "looking up" [RawToolCall.mk (some "query_graphql") (some "idA") []],
         Msg.tool "result text" (some "idB")]
      = [Msg.ai "looking up" [RawToolCall.mk (some "query_graphql") (some "idA") []],
         Msg.tool "result text" (some "idB")] := by decide

/-- Claim C4 (amended): before each decision step the history is
re-filtered, and a `ToolResultMessage` is kept iff the nearest preceding
non-tool message is an assistant message whose tool-call list is nonempty;
the tool-call identifier itself is never compared (the filter commutes
with an arbitrary rewriting of every tool-call id).  All other messages
are always kept. -/
theorem C4_dangling_tool_results :
    (∀ messages : List Msg, _sanitize_for_llm messages = specToolFilter messages)
    ∧ (∀ (f : Option String → Option String) (messages : List Msg),
        _sanitize_for_llm (messages.map (mapToolIds f))
          = (_sanitize_for_llm messages).map (mapToolIds f)) := by
  constructor
  · intro messages
    exact sanitizeForLLMAux_eq_spec messages [] false rfl
  · intro f messages
    exact sanitizeForLLMAux_map_ids f messages false

/-- Claim C2, counterexample: the sanitizer is not idempotent.  On the
input `",,)"` the dangling-comma pass rewrites the second `,)` to `)`
giving `",)"`, and a second application collapses that again to `")"`. -/
theorem C2_counterexample :
    ¬ (_sanitize_query (_sanitize_query ",,)") = _sanitize_query ",,)") := by decide

/-- Claim C2 (amended): `sanitize(sanitize(q)) = sanitize(q)` does not hold
for every string — the dangling `, )` collapse (and likewise the
`channelListings` argument stripping) can produce new work for a second
application (counterexample `",,)"`, whose image `",)"` is collapsed again).
Idempotence does hold on the documented repair examples: the pagination
injection, the channel-argument stripping and the range rename each map
their example to a fixed point of the sanitizer. -/
theorem C2_sanitize_idempotent_on_examples :
    _sanitize_query (_sanitize_query "products(filter: \x7bsearch: \"x\"\x7d)")
        = _sanitize_query "products(filter: \x7bsearch: \"x\"\x7d)"
    ∧ _sanitize_query
          (_sanitize_query "channelListings(channel: \"x\") \x7b isPublished \x7d")
        = _sanitize_query "channelListings(channel: \"x\") \x7b isPublished \x7d"
    ∧ _sanitize_query (_sanitize_query "stop \x7b end \x7b gross \x7d \x7d")
        = _sanitize_query "stop \x7b end \x7b gross \x7d \x7d" := by
  refine ⟨by decide, by decide, by decide⟩

/-- Claim C6: `_invoke_graphql` attempts the no-schema transport first on
the *sanitized* query; on any failure it attempts the schema-fetching
transport on the same sanitized query; and when both fail it raises a
composite error that carries both underlying failure texts verbatim. -/
theorem C6_transport_order_and_composite_failure :
    ∀ (e1 e2 : ToolInput → Except String String) (q r a b : String),
      (e1 (ToolInput.tstr (_sanitize_query q)) = Except.ok r →
        _invoke_graphql e1 e2 (ToolInput.tstr q) = Except.ok r)
      ∧ (e1 (ToolInput.tstr (_sanitize_query q)) = Except.error a →
         e2 (ToolInput.tstr (_sanitize_query q)) = Except.ok r →
        _invoke_graphql e1 e2 (ToolInput.tstr q) = Except.ok r)
      ∧ (e1 (ToolInput.tstr (_sanitize_query q)) = Except.error a →
         e2 (ToolInput.tstr (_sanitize_query q)) = Except.error b →
        _invoke_graphql e1 e2 (ToolInput.tstr q)
          = Except.error ("GraphQL failed. No-schema error: " ++ a
              ++ " | With-schema error: " ++ b)) := by
  intro e1 e2 q r a b
  refine ⟨?_, ?_, ?_⟩
  · intro h1; simp [_invoke_graphql, h1]
  · intro h1 h2; simp [_invoke_graphql, h1, h2]
  · intro h1 h2; simp [_invoke_graphql, h1, h2]

/-- Witness for C6 at a concrete input: both transports fail, and the
raised error carries both failure texts. -/
theorem C6_witness :
    _invoke_graphql (fun _ => Except.error "A") (fun _ => Except.error "B")
        (ToolInput.tstr "q")
      = Except.error ("GraphQL failed. No-schema error: " ++ "A"
          ++ " | With-schema error: " ++ "B") :=
  (C6_transport_order_and_composite_failure
    (fun _ => Except.error "A") (fun _ => Except.error "B") "q" "" "A" "B").2.2 rfl rfl

/-- Claim C10: the structured-input renderer bounds only non-string
fields.  `None` renders as the literal `"N/A"`; a non-string field is
rendered from its serialization (or, if serializing raises, its string
coercion) truncated to at most 4000 characters; a string-valued field is
included verbatim, and in particular the user question is interpolated
directly, so the rendered message grows without any 4000-character bound
as the question grows. -/
theorem C10_renderer_bounds_only_nonstring_fields :
    (∀ s : String, _fmt (PyObj.pyStr s) = s)
    ∧ _fmt PyObj.pyNone = "N/A"
    ∧ (∀ (d : Option String) (r : String), (_fmt (PyObj.pyOther d r)).length ≤ 4000)
    ∧ (∀ (q : String) (ad kp kr : PyObj),
        _render_structured_input q ad kp kr
          = "# INPUTS\n" ++ "Users query: " ++ q ++ "\n"
              ++ "Additional details: " ++ _fmt ad ++ "\n"
              ++ "KG products: " ++ _fmt kp ++ "\n"
              ++ "KG response: " ++ _fmt kr ++ "\n")
    ∧ (∀ (q : String) (ad kp kr : PyObj) (n : Nat), n ≤ q.length →
        n ≤ (_render_structured_input q ad kp kr).length) := by
  refine ⟨fun s => rfl, rfl, ?_, fun q ad kp kr => rfl, ?_⟩
  · intro d r
    cases d with
    | none =>
      show (r.data.take 4000).length ≤ 4000
      rw [List.length_take]
      exact Nat.min_le_left _ _
    | some j =>
      show (j.data.take 4000).length ≤ 4000
      rw [List.length_take]
      exact Nat.min_le_left _ _
  · intro q ad kp kr n hn
    have h2 : n ≤ q.length := hn
    simp only [_render_structured_input, String.length_append]
    omega

/-- Witness for C10 at a concrete input: a five-character question makes
the rendered message at least five characters long. -/
theorem C10_witness :
    (5 : Nat) ≤ "hello".length
    ∧ 5 ≤ (_render_structured_input "hello" PyObj.pyNone PyObj.pyNone PyObj.pyNone).length :=
  ⟨by decide,
   C10_renderer_bounds_only_nonstring_fields.2.2.2.2 "hello"
     PyObj.pyNone PyObj.pyNone PyObj.pyNone 5 (by decide)⟩

/-- Claim C3, counterexample: the claim states that when a run fails the
stored state for that session is left exactly as it was before the
request.  Here session `"s1"` holds one earlier message, the graph run
(the LLM decision step) fails, and afterwards the store for `"s1"` is no
longer its previous value: the new user message was appended in place
before the failure, so the stored history is half-written (user message
present, no assistant reply). -/
theorem C3_counterexample :
    ((chat_bot (fun _ => Except.error "llm failure")
        (fun k => if k = "s1" then some [Msg.human "earlier"] else none)
        (some "s1") "hello" PyObj.pyNone PyObj.pyNone PyObj.pyNone).2
      = Except.error "llm failure")
    ∧ ¬ ((chat_bot (fun _ => Except.error "llm failure")
        (fun k => if k = "s1" then some [Msg.human "earlier"] else none)
        (some "s1") "hello" PyObj.pyNone PyObj.pyNone PyObj.pyNone).1 "s1"
      = some [Msg.human "earlier"]) := by
  refine ⟨by decide, by decide⟩

/-- Claim C3 (amended): the session state is read once at entry and the
complete new state is written back only on success; but the write is not
atomic with respect to failure.  `run_structured` appends the rendered
user message to the stored state in place before running the graph, so
when the run fails an existing session is left with exactly the new user
message appended and no assistant reply, while a previously unseen
session id is simply absent.  Other sessions are never touched. -/
theorem C3_session_store_failure_semantics :
    ∀ (graphRun : List Msg → Except String (List Msg)) (sessions : SessionStore)
      (sid question : String) (ad kp kr : PyObj) (e : String) (ns : List Msg),
      question ≠ "" → sid ≠ "" →
      ((graphRun ((match sessions sid with | some m => m | none => [])
            ++ [Msg.human (_render_structured_input question ad kp kr)])
          = Except.error e →
        ((chat_bot graphRun sessions (some sid) question ad kp kr).1 sid
            = match sessions sid with
              | some m => some (m ++ [Msg.human (_render_structured_input question ad kp kr)])
              | none => none)
        ∧ (chat_bot graphRun sessions (some sid) question ad kp kr).2 = Except.error e)
      ∧ (graphRun ((match sessions sid with | some m => m | none => [])
            ++ [Msg.human (_render_structured_input question ad kp kr)])
          = Except.ok ns →
        (chat_bot graphRun sessions (some sid) question ad kp kr).1 sid = some ns)
      ∧ (∀ k, k ≠ sid → (chat_bot graphRun sessions (some sid) question ad kp kr).1 k
            = sessions k)) := by
  intro graphRun sessions sid question ad kp kr e ns hq hsid
  refine ⟨?_, ?_, ?_⟩
  · intro hrun
    constructor
    · simp only [chat_bot, if_neg hq, if_neg hsid, hrun]
      cases h : sessions sid <;> simp [h]
    · simp only [chat_bot, if_neg hq, if_neg hsid, hrun]
  · intro hrun
    simp only [chat_bot, if_neg hq, if_neg hsid, hrun]
    simp
  · intro k hk
    simp only [chat_bot, if_neg hq, if_neg hsid]
    cases hrun : graphRun ((match sessions sid with | some m => m | none => [])
        ++ [Msg.human (_render_structured_input question ad kp kr)]) <;>
      simp [hk]

/-- Witness for C3 at a concrete input: a failing run against a stored
session leaves the new user message appended in the store and surfaces
the failure. -/
theorem C3_witness :
    ("hi" ≠ "" ∧ "w1" ≠ "")
    ∧ ((chat_bot (fun _ => Except.error "boom")
          (fun k => if k = "w1" then some [Msg.system "s"] else none)
          (some "w1") "hi" PyObj.pyNone PyObj.pyNone PyObj.pyNone).1 "w1"
        = some [Msg.system "s",
            Msg.human (_render_structured_input "hi" PyObj.pyNone PyObj.pyNone PyObj.pyNone)]) :=
  ⟨⟨by decide, by decide⟩, by
    have h := (C3_session_store_failure_semantics (fun _ => Except.error "boom")
      (fun k => if k = "w1" then some [Msg.system "s"] else none)
      "w1" "hi" PyObj.pyNone PyObj.pyNone PyObj.pyNone "boom" []
      (by decide) (by decide)).1 rfl
    exact h.1⟩

/-- Claim C9: `sanitize` strips any parenthesized argument list attached
to a field literally named `channelListings`.  First conjunct: for every
argument text free of `)` the whole call `channelListings(args)` is
rewritten by the stripping pass to the bare field name.  Second conjunct:
the documented example through the full sanitizer, with no parenthesized
arguments surviving on the field. -/
theorem C9_channelListings_arg_stripping :
    (∀ args : List Char, (∀ c ∈ args, c ≠ ')') →
      stripChan ("channelListings(".data ++ args ++ [')'])
        = "channelListings".data)
    ∧ _sanitize_query "channelListings(channel: \"x\") \x7b isPublished \x7d"
        = "channelListings \x7b isPublished \x7d" := by
  constructor
  · intro args hargs
    have hassoc : "channelListings(".data ++ args ++ [')']
        = "channelListings".data ++ ('(' :: (args ++ [')'])) := by
      simp
    have hdrop : dropLit "channelListings".data
        ("channelListings(".data ++ args ++ [')'])
        = some ('(' :: (args ++ [')'])) := by
      rw [hassoc]; exact dropLit_self_append _ _
    have hdw : (args ++ [')']).dropWhile (fun d => !decide (d = ')')) = [')'] := by
      refine dropWhile_append_all _ args ')' [] (fun x hx => ?_) (by simp)
      simp [hargs x hx]
    have hws : isWsChar '(' = false := rfl
    have hmatch : matchChan ("channelListings(".data ++ args ++ [')']) = some [] := by
      rw [matchChan, hdrop]
      simp only [List.dropWhile_cons, hws]
      simp [hdw]
    show stripChanAux ("channelListings(".data ++ args ++ [')']).length
        ("channelListings(".data ++ args ++ [')']) = "channelListings".data
    have hlen : ("channelListings(".data ++ args ++ [')']).length
        = ("hannelListings(".data ++ args ++ [')']).length + 1 := by
      simp
    have hcons : "channelListings(".data ++ args ++ [')']
        = 'c' :: ("hannelListings(".data ++ args ++ [')']) := rfl
    rw [hlen, hcons]
    rw [stripChanAux]
    rw [← hcons, hmatch]
    simp [stripChanAux_nil]
  · decide

/-- Witness for C9 at a concrete input: the argument list of the
documented example is stripped by the stripping pass. -/
theorem C9_witness :
    stripChan ("channelListings(".data ++ "channel: \"x\"".data ++ [')'])
      = "channelListings".data :=
  C9_channelListings_arg_stripping.1 "channel: \"x\"".data (by decide)

/-- Claim C8, counterexample: the claim says the `end`-to-`stop` rename
tolerates case variation.  The substitution is case-sensitive
(`re.sub(r'\bend\s*\x7b', ...)` with no IGNORECASE flag): on `"End \x7b"`
the sanitizer changes nothing, whereas the claim predicts a rewrite to
`"stop \x7b"`. -/
theorem C8_counterexample :
    _sanitize_query "End \x7b" = "End \x7b"
    ∧ ¬ ("End \x7b" = "stop \x7b") := by
  refine ⟨by decide, by decide⟩

/-- Claim C8 (amended): the rename is whitespace-tolerant before the brace
but case-sensitive: every occurrence of lowercase `end` at a word boundary
followed by optional whitespace and an opening brace is rewritten to
`stop` followed by a single space and the brace (first conjunct, for an
arbitrary run of whitespace; the remaining conjuncts run the full
sanitizer on concrete inputs), while `end` not followed by an opening
brace, or not at a word boundary, is left unchanged. -/
theorem C8_range_terminator_rename :
    (∀ w : List Char, (∀ c ∈ w, isWsChar c = true) →
      renameEnd ("end".data ++ w ++ ['\x7b']) = "stop \x7b".data)
    ∧ _sanitize_query "end \x7b" = "stop \x7b"
    ∧ _sanitize_query "price \x7b end \x7b gross \x7d \x7d"
        = "price \x7b stop \x7b gross \x7d \x7d"
    ∧ _sanitize_query "the end" = "the end"
    ∧ _sanitize_query "weekend \x7b" = "weekend \x7b" := by
  refine ⟨?_, by decide, by decide, by decide, by decide⟩
  intro w hw
  have hdrop : dropLit "end".data ("end".data ++ (w ++ ['\x7b']))
      = some (w ++ ['\x7b']) := dropLit_self_append _ _
  have hdw : (w ++ ['\x7b']).dropWhile isWsChar = ['\x7b'] :=
    dropWhile_append_all isWsChar w '\x7b' [] (fun x hx => hw x hx) rfl
  have hmatch : matchEnd ("end".data ++ w ++ ['\x7b']) = some [] := by
    have hassoc : "end".data ++ w ++ ['\x7b'] = "end".data ++ (w ++ ['\x7b']) := by
      simp
    rw [matchEnd, hassoc, hdrop]
    show (match (w ++ ['\x7b']).dropWhile isWsChar with
          | c :: r2 => if c = '\x7b' then some r2 else none
          | [] => none) = some []
    rw [hdw]
    rfl
  show renameEndAux ("end".data ++ w ++ ['\x7b']).length false
      ("end".data ++ w ++ ['\x7b']) = "stop \x7b".data
  have hlen : ("end".data ++ w ++ ['\x7b']).length
      = ("nd".data ++ w ++ ['\x7b']).length + 1 := by simp
  have hcons : "end".data ++ w ++ ['\x7b']
      = 'e' :: ("nd".data ++ w ++ ['\x7b']) := rfl
  rw [hlen, hcons]
  rw [renameEndAux]
  rw [← hcons, hmatch]
  simp [renameEndAux_nil]

/-- Witness for C8 at a concrete input: a two-space whitespace run between
`end` and the brace is tolerated by the rename pass. -/
theorem C8_witness :
    renameEnd ("end".data ++ [' ', ' '] ++ ['\x7b']) = "stop \x7b".data :=
  C8_range_terminator_rename.1 [' ', ' '] (by decide)

theorem lengthDropWhileLe {α : Type} (p : α → Bool) :
    ∀ l : List α, (l.dropWhile p).length ≤ l.length := by
  intro l
  induction l with
  | nil => simp
  | cons a as ih =>
    rw [List.dropWhile_cons]
    by_cases h : p a = true
    · rw [if_pos h]
      exact le_trans ih (by simp)
    · rw [if_neg h]

/-- Claim C7: for a call `products(...)` whose argument list mentions
neither `first:` nor `last:`, the sanitizer injects `first: 10` as the
first argument and preserves the existing arguments.  First conjunct: the
injection pass rewrites `products(inner)` to `products(first: 10, inner)`
for every nonempty argument text `inner` that is free of `)`, already
stripped of outer whitespace, and without a `first:`/`last:` argument.
Second conjunct: the documented example through the full sanitizer, which
contains `first: 10` and still contains the original filter argument. -/
theorem C7_pagination_injection :
    (∀ inner : List Char, inner ≠ [] →
      (∀ c ∈ inner, c ≠ ')') →
      pyStripChars inner = inner →
      searchFLAux false inner = false →
      injectFirst ("products(".data ++ inner ++ [')'])
        = "products(first: 10, ".data ++ inner ++ [')'])
    ∧ _sanitize_query "products(filter: \x7bsearch: \"x\"\x7d)"
        = "products(first: 10, filter: \x7bsearch: \"x\"\x7d)" := by
  constructor
  · intro inner hne hnp hstrip hFL
    obtain ⟨c0, rest, rfl⟩ : ∃ c0 rest, inner = c0 :: rest := by
      cases inner with
      | nil => exact absurd rfl hne
      | cons a l => exact ⟨a, l, rfl⟩
    have hws0 : isWsChar c0 = false := by
      cases h : isWsChar c0 with
      | false => rfl
      | true =>
        exfalso
        have hlen : (pyStripChars (c0 :: rest)).length = (c0 :: rest).length := by
          rw [hstrip]
        have l1 : (rest.dropWhile isWsChar).length ≤ rest.length :=
          lengthDropWhileLe _ _
        have l2 : (((rest.dropWhile isWsChar).reverse.dropWhile isWsChar)).length
            ≤ (rest.dropWhile isWsChar).reverse.length :=
          lengthDropWhileLe _ _
        rw [List.length_reverse] at l2
        rw [pyStripChars, List.dropWhile_cons, if_pos h, List.length_reverse,
          List.length_cons] at hlen
        omega
    have hdrop : dropLit "products".data
        ("products".data ++ ('(' :: ((c0 :: rest) ++ [')'])))
        = some ('(' :: ((c0 :: rest) ++ [')'])) := dropLit_self_append _ _
    have hc0 : c0 ≠ ')' := hnp c0 (by simp)
    have htw : List.takeWhile (fun d => !decide (d = ')')) (rest ++ [')']) = rest := by
      refine takeWhile_append_all _ rest ')' [] (fun x hx => ?_) (by simp)
      simp [hnp x (by simp [hx])]
    have hdw : List.dropWhile (fun d => !decide (d = ')')) (rest ++ [')']) = [')'] := by
      refine dropWhile_append_all _ rest ')' [] (fun x hx => ?_) (by simp)
      simp [hnp x (by simp [hx])]
    have hwsP : isWsChar '(' = false := rfl
    have hmatch : matchProd ("products(".data ++ (c0 :: rest) ++ [')'])
        = some (c0 :: rest, []) := by
      have hassoc : "products(".data ++ (c0 :: rest) ++ [')']
          = "products".data ++ ('(' :: ((c0 :: rest) ++ [')'])) := rfl
      rw [matchProd, hassoc, hdrop]
      simp only [List.dropWhile_cons, hwsP]
      simp [htw, hdw, hc0, hws0, List.takeWhile_cons, List.dropWhile_cons]
    show injectFirstAux ("products(".data ++ (c0 :: rest) ++ [')']).length
        ("products(".data ++ (c0 :: rest) ++ [')'])
      = "products(first: 10, ".data ++ (c0 :: rest) ++ [')']
    have hlen2 : ("products(".data ++ (c0 :: rest) ++ [')']).length
        = ("roducts(".data ++ (c0 :: rest) ++ [')']).length + 1 := by simp
    have hcons : "products(".data ++ (c0 :: rest) ++ [')']
        = 'p' :: ("roducts(".data ++ (c0 :: rest) ++ [')']) := rfl
    rw [hlen2, hcons, injectFirstAux, ← hcons, hmatch]
    show add_first (c0 :: rest)
        ++ injectFirstAux ("roducts(".data ++ c0 :: rest ++ [')']).length []
      = "products(first: 10, ".data ++ c0 :: rest ++ [')']
    rw [injectFirstAux_nil]
    rw [add_first]
    rw [if_neg (by rw [hFL]; exact Bool.false_ne_true)]
    rw [hstrip]
    simp
  · decide

/-- Witness for C7 at a concrete input: a channel argument is preserved
and `first: 10` is injected before it. -/
theorem C7_witness :
    injectFirst ("products(".data ++ "channel: \"c\"".data ++ [')'])
      = "products(first: 10, ".data ++ "channel: \"c\"".data ++ [')'] :=
  C7_pagination_injection.1 "channel: \"c\"".data (by decide) (by decide)
    (by decide) (by decide)

/-- Claim C1, counterexample: the claim says a Tool Executor failure is
recorded as the tool-result content and the loop continues.  In the code
there is no handler around `_invoke_graphql` inside `_tool_loop`: when
both transports fail, the composite error propagates out of the loop
instead of any result being returned. -/
theorem C1_counterexample :
    _tool_loop
        (fun _ => Except.ok (LLMResp.mk "thinking"
          [RawToolCall.mk (some "query_graphql") (some "call1")
            [("query", PyVal.vStr "\x7b shop \x7b name \x7d \x7d")]]))
        (fun _ => Except.error "no-schema boom")
        (fun _ => Except.error "with-schema boom")
        "task" 4
      = Except.error
          "GraphQL failed. No-schema error: no-schema boom | With-schema error: with-schema boom" := by
  decide

/-- Claim C1 (amended): a Tool Executor failure is fatal to the loop.
When the decision step declares a tool call and both GraphQL transports
fail on its (sanitized) query, the tool-call loop aborts with the
composite failure, which propagates to the caller; the failure text is
not recorded as a tool-result message and no further decision step runs.
An LLM decision-step failure aborts and propagates in the same way. -/
theorem C1_tool_executor_failure_is_fatal :
    ∀ (llm : List Msg → Except String LLMResp)
      (e1 e2 : ToolInput → Except String String)
      (task q a b content : String) (nm cid : Option String) (n : Nat),
      (llm [Msg.system SYSTEM_PROMPT, Msg.human task]
          = Except.ok (LLMResp.mk content
              [RawToolCall.mk nm cid [("query", PyVal.vStr q)]]) →
        q ≠ "" →
        e1 (ToolInput.tstr (_sanitize_query q)) = Except.error a →
        e2 (ToolInput.tstr (_sanitize_query q)) = Except.error b →
        _tool_loop llm e1 e2 task (n + 1)
          = Except.error ("GraphQL failed. No-schema error: " ++ a
              ++ " | With-schema error: " ++ b))
      ∧ (∀ e : String,
          llm [Msg.system SYSTEM_PROMPT, Msg.human task] = Except.error e →
          _tool_loop llm e1 e2 task (n + 1) = Except.error e) := by
  intro llm e1 e2 task q a b content nm cid n
  constructor
  · intro hllm hq he1 he2
    rw [_tool_loop, _tool_loop_aux, hllm]
    simp [execToolCalls, dictGet, List.find?, pyOrVal, pyTruthy, hq,
      _invoke_graphql, he1, he2]
  · intro e hllm
    rw [_tool_loop, _tool_loop_aux, hllm]

/-- Witness for C1 at a concrete input: with one declared tool call and
both transports failing, the loop aborts with the composite error. -/
theorem C1_witness :
    _tool_loop
        (fun _ => Except.ok (LLMResp.mk "c"
          [RawToolCall.mk (some "query_graphql") (some "id1")
            [("query", PyVal.vStr "q1")]]))
        (fun _ => Except.error "E1") (fun _ => Except.error "E2") "t" 4
      = Except.error ("GraphQL failed. No-schema error: " ++ "E1"
          ++ " | With-schema error: " ++ "E2") :=
  (C1_tool_executor_failure_is_fatal
    (fun _ => Except.ok (LLMResp.mk "c"
      [RawToolCall.mk (some "query_graphql") (some "id1")
        [("query", PyVal.vStr "q1")]]))
    (fun _ => Except.error "E1") (fun _ => Except.error "E2")
    "t" "q1" "E1" "E2" "c" (some "query_graphql") (some "id1") 3).1
    rfl (by decide) rfl rfl

theorem toolLoop_allcalls_aux (g : Nat → String) (h1 h2 : ToolInput → String)
    (nm cid : Option String) (q : String) (hq : q ≠ "") :
    ∀ (n : Nat) (msgs : List Msg) (qs : List String) (la : Option LLMResp) (calls : Nat),
      _tool_loop_aux
          (fun ms => Except.ok (LLMResp.mk (g ms.length)
            [RawToolCall.mk nm cid [("query", PyVal.vStr q)]]))
          (fun ti => Except.ok (h1 ti)) (fun ti => Except.ok (h2 ti))
          n msgs qs la calls
        = (Except.ok (LoopResult.mk
            (if n = 0 then answerOf la else g (msgs.length + 2 * (n - 1)))
            (qs ++ List.replicate n (_sanitize_query q))), calls + n) := by
  intro n
  induction n with
  | zero =>
    intro msgs qs la calls
    simp [_tool_loop_aux]
  | succ k ih =>
    intro msgs qs la calls
    rw [_tool_loop_aux]
    simp only [List.isEmpty]
    simp only [execToolCalls, dictGet, List.find?, pyOrVal, pyTruthy,
      _invoke_graphql, decide_True, decide_False, hq, if_false, if_true,
      Bool.false_eq_true, String.reduceEq, ite_false, ite_true]
    rw [ih]
    have hlen : (msgs ++ [Msg.ai (g msgs.length)
          (List.map sanitizeToolCall [RawToolCall.mk nm cid [("query", PyVal.vStr q)]])]
        ++ [Msg.tool (h1 (ToolInput.tstr (_sanitize_query q))) cid]).length
        = msgs.length + 2 := by
      simp
    rw [hlen]
    cases k with
    | zero =>
      simp [answerOf, List.replicate]
    | succ k2 =>
      have harith : msgs.length + 2 + 2 * (k2 + 1 - 1) = msgs.length + 2 * (k2 + 1 + 1 - 1) := by
        omega
      have hcalls : calls + 1 + (k2 + 1) = calls + (k2 + 1 + 1) := by omega
      simp only [harith, hcalls]
      have hrep : qs ++ [_sanitize_query q] ++ List.replicate (k2 + 1) (_sanitize_query q)
          = qs ++ List.replicate (k2 + 1 + 1) (_sanitize_query q) := by
        rw [List.append_assoc]
        rw [show List.replicate (k2 + 1 + 1) (_sanitize_query q)
          = _sanitize_query q :: List.replicate (k2 + 1) (_sanitize_query q) from rfl]
        rfl
      rw [hrep]
      simp

/-- Claim C5: with an LLM capability that declares a tool call in every
response (and succeeding transports), the loop performs exactly
`max_iters` decision steps — the counter component is `max_iters` — and
returns the last assistant text as the answer: the content of the final
response, produced at message-list length `2 * max_iters` (the history
grows by an assistant message and one tool result per iteration, starting
from the system and user messages).  When `max_iters = 0` (the
configured maximum in the source defaults to 4) no assistant response
exists and the fixed fallback string is the answer.  The recorded queries
are the sanitized query of each of the `max_iters` executed calls. -/
theorem C5_iteration_capping :
    ∀ (g : Nat → String) (h1 h2 : ToolInput → String)
      (nm cid : Option String) (q task : String) (max_iters : Nat),
      q ≠ "" →
      _tool_loop_aux
          (fun ms => Except.ok (LLMResp.mk (g ms.length)
            [RawToolCall.mk nm cid [("query", PyVal.vStr q)]]))
          (fun ti => Except.ok (h1 ti)) (fun ti => Except.ok (h2 ti))
          max_iters [Msg.system SYSTEM_PROMPT, Msg.human task] [] none 0
        = (Except.ok (LoopResult.mk
            (if max_iters = 0 then fallbackAnswer else g (2 * max_iters))
            (List.replicate max_iters (_sanitize_query q))), max_iters)
      ∧ (q ≠ "" →
        _tool_loop
          (fun ms => Except.ok (LLMResp.mk (g ms.length)
            [RawToolCall.mk nm cid [("query", PyVal.vStr q)]]))
          (fun ti => Except.ok (h1 ti)) (fun ti => Except.ok (h2 ti))
          task max_iters
        = Except.ok (LoopResult.mk
            (if max_iters = 0 then fallbackAnswer else g (2 * max_iters))
            (List.replicate max_iters (_sanitize_query q)))) := by
  intro g h1 h2 nm cid q task max_iters hq
  have hmain : _tool_loop_aux
      (fun ms => Except.ok (LLMResp.mk (g ms.length)
        [RawToolCall.mk nm cid [("query", PyVal.vStr q)]]))
      (fun ti => Except.ok (h1 ti)) (fun ti => Except.ok (h2 ti))
      max_iters [Msg.system SYSTEM_PROMPT, Msg.human task] [] none 0
    = (Except.ok (LoopResult.mk
        (if max_iters = 0 then fallbackAnswer else g (2 * max_iters))
        (List.replicate max_iters (_sanitize_query q))), max_iters) := by
    rw [toolLoop_allcalls_aux g h1 h2 nm cid q hq]
    cases max_iters with
    | zero => simp [answerOf]
    | succ m =>
      have harith : (2 + 2 * m) = 2 * (m + 1) := by omega
      simp [harith]
  refine ⟨hmain, fun _ => ?_⟩
  rw [_tool_loop, hmain]

/-- Witness for C5 at a concrete input: four iterations, four decision
steps, answer taken from the fourth response (history length 8). -/
theorem C5_witness :
    _tool_loop_aux
        (fun ms => Except.ok (LLMResp.mk (toString ms.length)
          [RawToolCall.mk (some "query_graphql") (some "c1")
            [("query", PyVal.vStr "x")]]))
        (fun _ => Except.ok "ok1") (fun _ => Except.ok "ok2")
        4 [Msg.system SYSTEM_PROMPT, Msg.human "t"] [] none 0
      = (Except.ok (LoopResult.mk (toString (2 * 4))
          (List.replicate 4 (_sanitize_query "x"))), 4) :=
  ((C5_iteration_capping (fun n => toString n) (fun _ => "ok1") (fun _ => "ok2")
    (some "query_graphql") (some "c1") "x" "t" 4 (by decide)).1)
